import Mathlib

/-!
Verification of the CamTech camera/annotation core: the manual pixel filter
engine (src/hooks/useCamera.js) and the layer-compositing export pipeline
(src/utils/ExportEngine.js, DrawTool).  JavaScript numeric code is embedded
over `ℚ` (the constants are exact decimals), byte storage into a
`Uint8ClampedArray` is modelled as clamp-to-[0,255] followed by
round-half-to-even, and JS `||` defaulting and string dispatch are modelled
explicitly.
-/

namespace CamTech

/-- One RGBA pixel as read from a `Uint8ClampedArray` (channels are bytes,
so natural numbers; validity means every channel is at most 255). -/
structure Pixel where
  r : ℕ
  g : ℕ
  b : ℕ
  a : ℕ
deriving DecidableEq, Repr

/-- The clamp helper of `applyPixelFilter` in useCamera.js:
`v < 0 ? 0 : v > 255 ? 255 : v`. -/
def clamp (v : ℚ) : ℚ :=
  if v < 0 then 0 else if v > 255 then 255 else v

/-- Round half to even, the rounding performed when a JS number is assigned
into a `Uint8ClampedArray` slot. -/
def roundHalfEven (q : ℚ) : ℤ :=
  if Int.fract q < 1/2 then ⌊q⌋
  else if 1/2 < Int.fract q then ⌊q⌋ + 1
  else if ⌊q⌋ % 2 = 0 then ⌊q⌋ else ⌊q⌋ + 1

/-- Storing a JS number into a `Uint8ClampedArray` slot: clamp to `[0,255]`
then round half to even.  The filter code additionally clamps before every
store; clamping twice is the same as clamping once. -/
def store (v : ℚ) : ℕ :=
  (roundHalfEven (clamp v)).toNat

/-- The `mono` branch of `applyPixelFilter`: luminance
`0.299 R + 0.587 G + 0.114 B`, contrast `(gray - 128) * 1.1 + 128`, clamp,
and set all three colour channels to the stored result. -/
def monoPixel (p : Pixel) : Pixel :=
  let gray : ℚ := (p.r : ℚ) * 0.299 + (p.g : ℚ) * 0.587 + (p.b : ℚ) * 0.114
  let contrasted : ℚ := (gray - 128) * 1.1 + 128
  let final : ℕ := store contrasted
  ⟨final, final, final, p.a⟩

/-- The `warm` branch of `applyPixelFilter`: saturate about the average gray
by `(1.15, 1.1, 0.9)`, shift by `(+15, +8, -20)`, multiply by
`(1.08, 1.05, 1.0)`, clamp each channel. -/
def warmPixel (p : Pixel) : Pixel :=
  let r0 : ℚ := (p.r : ℚ)
  let g0 : ℚ := (p.g : ℚ)
  let b0 : ℚ := (p.b : ℚ)
  let gray : ℚ := (r0 + g0 + b0) / 3
  let r1 : ℚ := gray + (r0 - gray) * 1.15
  let g1 : ℚ := gray + (g0 - gray) * 1.1
  let b1 : ℚ := gray + (b0 - gray) * 0.9
  let r2 : ℚ := r1 + 15
  let g2 : ℚ := g1 + 8
  let b2 : ℚ := b1 - 20
  let r3 : ℚ := r2 * 1.08
  let g3 : ℚ := g2 * 1.05
  let b3 : ℚ := b2 * 1.0
  ⟨store r3, store g3, store b3, p.a⟩

/-- The `cool` branch of `applyPixelFilter`: saturate by `(0.9, 1.0, 1.1)`,
shift by `(-10, +5, +20)`, multiply by `(1.02, 1.05, 1.08)`, clamp. -/
def coolPixel (p : Pixel) : Pixel :=
  let r0 : ℚ := (p.r : ℚ)
  let g0 : ℚ := (p.g : ℚ)
  let b0 : ℚ := (p.b : ℚ)
  let gray : ℚ := (r0 + g0 + b0) / 3
  let r1 : ℚ := gray + (r0 - gray) * 0.9
  let g1 : ℚ := gray + (g0 - gray) * 1.0
  let b1 : ℚ := gray + (b0 - gray) * 1.1
  let r2 : ℚ := r1 - 10
  let g2 : ℚ := g1 + 5
  let b2 : ℚ := b1 + 20
  let r3 : ℚ := r2 * 1.02
  let g3 : ℚ := g2 * 1.05
  let b3 : ℚ := b2 * 1.08
  ⟨store r3, store g3, store b3, p.a⟩

/-- The `vibrant` branch of `applyPixelFilter`: saturate by `1.5`, contrast
`(x - 128) * 1.1 + 128` per channel, multiply by `1.03`, clamp. -/
def vibrantPixel (p : Pixel) : Pixel :=
  let r0 : ℚ := (p.r : ℚ)
  let g0 : ℚ := (p.g : ℚ)
  let b0 : ℚ := (p.b : ℚ)
  let gray : ℚ := (r0 + g0 + b0) / 3
  let r1 : ℚ := gray + (r0 - gray) * 1.5
  let g1 : ℚ := gray + (g0 - gray) * 1.5
  let b1 : ℚ := gray + (b0 - gray) * 1.5
  let r2 : ℚ := (r1 - 128) * 1.1 + 128
  let g2 : ℚ := (g1 - 128) * 1.1 + 128
  let b2 : ℚ := (b1 - 128) * 1.1 + 128
  let r3 : ℚ := r2 * 1.03
  let g3 : ℚ := g2 * 1.03
  let b3 : ℚ := b2 * 1.03
  ⟨store r3, store g3, store b3, p.a⟩

/-- The `vintage` branch of `applyPixelFilter`: desaturate by `0.7`, tint
`(R*1.1+10, G*1.0+5, B*0.85-5)`, compress contrast by `0.85` about 128, lift
by `(+15, +10, +5)`, clamp. -/
def vintagePixel (p : Pixel) : Pixel :=
  let r0 : ℚ := (p.r : ℚ)
  let g0 : ℚ := (p.g : ℚ)
  let b0 : ℚ := (p.b : ℚ)
  let gray : ℚ := (r0 + g0 + b0) / 3
  let r1 : ℚ := gray + (r0 - gray) * 0.7
  let g1 : ℚ := gray + (g0 - gray) * 0.7
  let b1 : ℚ := gray + (b0 - gray) * 0.7
  let r2 : ℚ := r1 * 1.1 + 10
  let g2 : ℚ := g1 * 1.0 + 5
  let b2 : ℚ := b1 * 0.85 - 5
  let r3 : ℚ := (r2 - 128) * 0.85 + 128
  let g3 : ℚ := (g2 - 128) * 0.85 + 128
  let b3 : ℚ := (b2 - 128) * 0.85 + 128
  let r4 : ℚ := r3 + 15
  let g4 : ℚ := g3 + 10
  let b4 : ℚ := b3 + 5
  ⟨store r4, store g4, store b4, p.a⟩

/-- The per-pixel action of the `switch (filterName)` in
`applyPixelFilter` (useCamera.js): only `mono`, `warm`, `cool`, `vibrant`
and `vintage` have cases; every other name falls to the default branch,
which leaves the pixel unchanged. -/
def applyFilterPixel (filterName : String) (p : Pixel) : Pixel :=
  match filterName with
  | "mono" => monoPixel p
  | "warm" => warmPixel p
  | "cool" => coolPixel p
  | "vibrant" => vibrantPixel p
  | "vintage" => vintagePixel p
  | _ => p

/-- `applyPixelFilter(imageData, filterName)` from useCamera.js: the loop
`for (i = 0; i < len; i += 4)` transforms each RGBA pixel independently, so
it is the map of the per-pixel action over the buffer. -/
def applyPixelFilter (imageData : List Pixel) (filterName : String) : List Pixel :=
  imageData.map (applyFilterPixel filterName)

/-- `FILTER_STYLES` from useCamera.js: the CSS preview string for each
filter id (`none` for keys that are absent). -/
def FILTER_STYLES (filterId : String) : Option String :=
  match filterId with
  | "original" => some "none"
  | "warm" => some "sepia(0.3) saturate(1.4) brightness(1.1)"
  | "cool" => some "saturate(0.9) hue-rotate(10deg) brightness(1.05)"
  | "vibrant" => some "saturate(1.6) contrast(1.1) brightness(1.05)"
  | "vintage" => some "sepia(0.4) contrast(0.9) brightness(0.95) saturate(0.8)"
  | "pastel" => some "saturate(0.7) brightness(1.15) contrast(0.9)"
  | "mono" => some "grayscale(1) contrast(1.1)"
  | "soft" => some "brightness(1.08) contrast(0.92) saturate(0.95)"
  | "crisp" => some "contrast(1.15) saturate(1.1) brightness(1.02)"
  | "fade" => some "contrast(0.85) saturate(0.75) brightness(1.1)"
  | _ => none

/-- C1 (counterexample): the spec reference vector is wrong.  On the triple
`(200,100,50)` the `mono` filter does not produce `(129,129,129)`: the
luminance is `124.2`, not `128.85`. -/
theorem mono_reference_vector_false :
    applyPixelFilter [⟨200, 100, 50, 255⟩] "mono" ≠ [⟨129, 129, 129, 255⟩] := by
  with_unfolding_all decide

/-- C1 (amended): applying the `mono` filter to the RGB triple `(200,100,50)`
produces `(124,124,124)`: the luminance is
`0.299*200 + 0.587*100 + 0.114*50 = 124.2`, the contrast step gives
`(124.2 - 128) * 1.1 + 128 = 123.82`, which is stored (rounded) as `124`. -/
theorem mono_200_100_50_eq_124 :
    applyPixelFilter [⟨200, 100, 50, 255⟩] "mono" = [⟨124, 124, 124, 255⟩] ∧
    ((200 : ℚ) * (299/1000) + (100 : ℚ) * (587/1000) + (50 : ℚ) * (114/1000) = 124.2 ∧
      ((124.2 : ℚ) - 128) * 1.1 + 128 = 123.82) := by
  refine ⟨by with_unfolding_all decide, by norm_num, by norm_num⟩

/-- C2: the filter kinds `pastel`, `soft`, `crisp` and `fade` have no case in
the `switch` of `applyPixelFilter`, so at capture time they are the identity
on every pixel of every buffer, even though each of them has a CSS preview
string different from the `none` used for `original`. -/
theorem passthrough_filters_identity (imageData : List Pixel) :
    applyPixelFilter imageData "pastel" = imageData ∧
    applyPixelFilter imageData "soft" = imageData ∧
    applyPixelFilter imageData "crisp" = imageData ∧
    applyPixelFilter imageData "fade" = imageData ∧
    FILTER_STYLES "pastel" ≠ FILTER_STYLES "original" ∧
    FILTER_STYLES "soft" ≠ FILTER_STYLES "original" ∧
    FILTER_STYLES "crisp" ≠ FILTER_STYLES "original" ∧
    FILTER_STYLES "fade" ≠ FILTER_STYLES "original" := by
  refine ⟨?_, ?_, ?_, ?_, by decide, by decide, by decide, by decide⟩ <;>
    simp only [applyPixelFilter] <;>
    exact List.map_id'' (fun p => rfl) imageData

theorem clamp_nonneg (v : ℚ) : 0 ≤ clamp v := by
  unfold clamp
  split
  · exact le_refl 0
  · split
    · norm_num
    · rename_i h1 _
      exact le_of_not_lt h1

theorem clamp_le_255 (v : ℚ) : clamp v ≤ 255 := by
  unfold clamp
  split
  · norm_num
  · split
    · exact le_refl 255
    · rename_i _ h2
      exact le_of_not_lt h2

theorem roundHalfEven_nonneg (q : ℚ) (h : 0 ≤ q) : 0 ≤ roundHalfEven q := by
  have hf : (0 : ℤ) ≤ ⌊q⌋ := Int.floor_nonneg.mpr h
  unfold roundHalfEven
  split
  · exact hf
  · split
    · omega
    · split <;> omega

theorem roundHalfEven_le_255 (q : ℚ) (h : q ≤ 255) : roundHalfEven q ≤ 255 := by
  have hfl : ⌊q⌋ ≤ 255 := by
    calc ⌊q⌋ ≤ ⌊(255 : ℚ)⌋ := Int.floor_le_floor h
    _ = 255 := by norm_num
  unfold roundHalfEven
  split
  · exact hfl
  · rename_i h1
    have hge : (1 : ℚ)/2 ≤ Int.fract q := not_lt.mp h1
    have hlt : ⌊q⌋ < 255 := by
      have h2 : (⌊q⌋ : ℚ) < 255 := by
        rw [← Int.self_sub_fract]
        linarith
      exact_mod_cast h2
    split
    · omega
    · split <;> omega

/-- Every value stored into a `Uint8ClampedArray` slot is at most 255 (it is
a natural number, so it is also at least 0). -/
theorem store_le_255 (v : ℚ) : store v ≤ 255 := by
  unfold store
  have h := roundHalfEven_le_255 (clamp v) (clamp_le_255 v)
  omega

/-- Case analysis on the `switch (filterName)` dispatch of
`applyPixelFilter`. -/
theorem applyFilterPixel_cases (filterName : String) (p : Pixel) :
    applyFilterPixel filterName p = monoPixel p ∨
    applyFilterPixel filterName p = warmPixel p ∨
    applyFilterPixel filterName p = coolPixel p ∨
    applyFilterPixel filterName p = vibrantPixel p ∨
    applyFilterPixel filterName p = vintagePixel p ∨
    applyFilterPixel filterName p = p := by
  unfold applyFilterPixel
  split
  · exact Or.inl rfl
  · exact Or.inr (Or.inl rfl)
  · exact Or.inr (Or.inr (Or.inl rfl))
  · exact Or.inr (Or.inr (Or.inr (Or.inl rfl)))
  · exact Or.inr (Or.inr (Or.inr (Or.inr (Or.inl rfl))))
  · exact Or.inr (Or.inr (Or.inr (Or.inr (Or.inr rfl))))

/-- C7: for every filter kind and every valid input buffer (all channels at
most 255, as in a `Uint8ClampedArray`), every colour channel of the output
of `applyPixelFilter` is at most 255 (and at least 0, channels being natural
numbers): each filter branch clamps before storing, and the default branch
leaves the byte unchanged. -/
theorem filter_channels_bounded (filterName : String) (imageData : List Pixel)
    (h : ∀ p ∈ imageData, p.r ≤ 255 ∧ p.g ≤ 255 ∧ p.b ≤ 255) :
    ∀ q ∈ applyPixelFilter imageData filterName,
      q.r ≤ 255 ∧ q.g ≤ 255 ∧ q.b ≤ 255 := by
  intro q hq
  rw [applyPixelFilter, List.mem_map] at hq
  obtain ⟨p, hp, rfl⟩ := hq
  have hb := h p hp
  rcases applyFilterPixel_cases filterName p with h1 | h1 | h1 | h1 | h1 | h1 <;> rw [h1]
  · exact ⟨store_le_255 _, store_le_255 _, store_le_255 _⟩
  · exact ⟨store_le_255 _, store_le_255 _, store_le_255 _⟩
  · exact ⟨store_le_255 _, store_le_255 _, store_le_255 _⟩
  · exact ⟨store_le_255 _, store_le_255 _, store_le_255 _⟩
  · exact ⟨store_le_255 _, store_le_255 _, store_le_255 _⟩
  · exact hb

/-- C7 witness: the bound instantiated at the filter `warm` on a buffer
holding the extreme pixels `(255,255,255)` and `(0,0,0)`. -/
theorem filter_channels_bounded_witness :
    (∀ p ∈ ([⟨255, 255, 255, 255⟩, ⟨0, 0, 0, 255⟩] : List Pixel),
        p.r ≤ 255 ∧ p.g ≤ 255 ∧ p.b ≤ 255) ∧
    (∀ q ∈ applyPixelFilter [⟨255, 255, 255, 255⟩, ⟨0, 0, 0, 255⟩] "warm",
        q.r ≤ 255 ∧ q.g ≤ 255 ∧ q.b ≤ 255) := by
  have hh : ∀ p ∈ ([⟨255, 255, 255, 255⟩, ⟨0, 0, 0, 255⟩] : List Pixel),
      p.r ≤ 255 ∧ p.g ≤ 255 ∧ p.b ≤ 255 := by
    simp [List.forall_mem_cons]
  exact ⟨hh, filter_channels_bounded "warm" _ hh⟩

/-- The JavaScript number values that the expression
`width / displayWidth` can take: a finite rational, a signed infinity, or
NaN. -/
inductive JSNumber where
  | fin : ℚ → JSNumber
  | posInf : JSNumber
  | negInf : JSNumber
  | nan : JSNumber
deriving DecidableEq, Repr

/-- JS division `width / displayWidth` where `displayWidth` may be
`undefined` (modelled as `none`, which coerces to NaN): division by zero
yields NaN for a zero numerator and a signed infinity otherwise. -/
def jsDivRaster (width : ℚ) (displayWidth : Option ℚ) : JSNumber :=
  match displayWidth with
  | none => JSNumber.nan
  | some d =>
    if d = 0 then
      if width = 0 then JSNumber.nan
      else if 0 < width then JSNumber.posInf
      else JSNumber.negInf
    else JSNumber.fin (width / d)

/-- JS truthiness of a number: `0` and `NaN` are falsy, infinities are
truthy. -/
def jsTruthy : JSNumber → Bool
  | JSNumber.fin q => decide (q ≠ 0)
  | JSNumber.posInf => true
  | JSNumber.negInf => true
  | JSNumber.nan => false

/-- `const dpr = width / displayWidth || 1` from `exportImage`
(ExportEngine.js). -/
def dprOf (width : ℚ) (displayWidth : Option ℚ) : JSNumber :=
  let v := jsDivRaster width displayWidth
  if jsTruthy v then v else JSNumber.fin 1

/-- C3 (counterexample): with a 100-pixel-wide base raster and
`displayWidth = 0`, the scale factor is `Infinity`, not the claimed
fallback `1`: `100 / 0` is `Infinity` in JS, which is truthy, so `|| 1`
does not engage. -/
theorem dpr_zero_displayWidth_not_one :
    dprOf 100 (some 0) ≠ JSNumber.fin 1 ∧ dprOf 100 (some 0) = JSNumber.posInf := by
  constructor <;> with_unfolding_all decide

/-- C3 (amended): the scale factor is `width / displayWidth` whenever that
quotient is a nonzero number, and the fallback to `1` fires exactly when the
quotient is falsy: always when `displayWidth` is `undefined` (NaN), and for
`displayWidth = 0` only when the raster width is also `0` (NaN); a positive
raster width with `displayWidth = 0` yields `Infinity`, a negative one
`-Infinity`. -/
theorem dpr_fallback (width : ℚ) :
    dprOf width none = JSNumber.fin 1 ∧
    dprOf width (some 0) =
      (if width = 0 then JSNumber.fin 1
        else if 0 < width then JSNumber.posInf else JSNumber.negInf) ∧
    (∀ d : ℚ, d ≠ 0 → width / d ≠ 0 → dprOf width (some d) = JSNumber.fin (width / d)) := by
  refine ⟨rfl, ?_, ?_⟩
  · unfold dprOf jsDivRaster
    by_cases h0 : width = 0
    · simp [h0, jsTruthy]
    · by_cases hpos : 0 < width <;> simp [h0, hpos, jsTruthy]
  · intro d hd hq
    unfold dprOf jsDivRaster
    simp [hd, jsTruthy, hq]

/-- C3 witness: the amended statement instantiated at raster width `100`,
with the division conjunct discharged at `displayWidth = 2`. -/
theorem dpr_fallback_witness :
    dprOf 100 none = JSNumber.fin 1 ∧ dprOf 100 (some 2) = JSNumber.fin 50 := by
  refine ⟨(dpr_fallback 100).1, ?_⟩
  have h := (dpr_fallback 100).2.2 2 (by norm_num) (by norm_num)
  rw [h]
  norm_num

end CamTech

namespace CamTech.ExportEngine

/-- `BRUSH_SIZES` from ExportEngine.js (its comment says it must match
DrawTool.jsx): `small` is 4, `medium` is 8, anything else is absent. -/
def BRUSH_SIZES (size : String) : Option ℚ :=
  match size with
  | "small" => some 4
  | "medium" => some 8
  | _ => none

end CamTech.ExportEngine

namespace CamTech.DrawTool

/-- `BRUSH_SIZES` from the DrawTool component (its comment says the
difference was increased for visibility): `small` is 4, `medium` is 16. -/
def BRUSH_SIZES (size : String) : Option ℚ :=
  match size with
  | "small" => some 4
  | "medium" => some 16
  | _ => none

end CamTech.DrawTool

namespace CamTech

/-- C4: the two `BRUSH_SIZES` tables agree on `small` but disagree on
`medium`: the export renderer uses line width 8 where the live drawing tool
uses 16, although the table in ExportEngine.js is annotated as having to
match DrawTool.jsx. -/
theorem brush_sizes_medium_mismatch :
    ExportEngine.BRUSH_SIZES "small" = DrawTool.BRUSH_SIZES "small" ∧
    ExportEngine.BRUSH_SIZES "medium" = some 8 ∧
    DrawTool.BRUSH_SIZES "medium" = some 16 ∧
    ExportEngine.BRUSH_SIZES "medium" ≠ DrawTool.BRUSH_SIZES "medium" := by
  refine ⟨rfl, rfl, rfl, ?_⟩
  intro h
  have h2 : (8 : ℚ) = 16 := Option.some.inj h
  norm_num at h2

/-- A 2D point in canvas coordinates. -/
structure Point where
  x : ℚ
  y : ℚ
deriving DecidableEq, Repr

/-- A freehand stroke as built by DrawTool: an id, a hex colour, a brush
size category and the ordered list of points. -/
structure Stroke where
  id : String
  color : String
  size : String
  points : List Point
deriving DecidableEq, Repr

/-- `BRUSH_SIZES[stroke.size] || BRUSH_SIZES.small` in
`drawStrokes` (ExportEngine.js): a missing key, and a zero value (falsy in
JS, which never occurs in the table), fall back to the `small` width 4. -/
def exportBrushWidth (size : String) : ℚ :=
  match ExportEngine.BRUSH_SIZES size with
  | some w => if w = 0 then 4 else w
  | none => 4

/-- Scaling a point by the DPI factor, as in
`stroke.points[i].x * scale`. -/
def scalePoint (scale : ℚ) (p : Point) : Point :=
  ⟨p.x * scale, p.y * scale⟩

/-- The polyline actually stroked on the canvas for one stroke: style,
line width, and scaled path (round caps and joins are fixed). -/
structure RenderedStroke where
  strokeStyle : String
  lineWidth : ℚ
  path : List Point
deriving DecidableEq, Repr

/-- One iteration of `drawStrokes` (ExportEngine.js): a stroke with fewer
than 2 points is skipped, otherwise a polyline through all its scaled
points is stroked with the brush width times the DPI scale. -/
def renderStroke (stroke : Stroke) (scale : ℚ) : Option RenderedStroke :=
  if stroke.points.length < 2 then none
  else some ⟨stroke.color, exportBrushWidth stroke.size * scale,
    stroke.points.map (scalePoint scale)⟩

/-- `drawStrokes` (ExportEngine.js): all strokes in insertion order, the
short ones skipped. -/
def drawStrokes (strokes : List Stroke) (scale : ℚ) : List RenderedStroke :=
  strokes.filterMap (fun s => renderStroke s scale)

/-- The stroke-commit core of `handleDrawEnd` (DrawTool): if not drawing or
no stroke is in progress, the committed list is unchanged; otherwise the
current stroke is appended only when it has at least 2 points. -/
def handleDrawEnd (isDrawing : Bool) (currentStroke : Option Stroke)
    (strokes : List Stroke) : List Stroke :=
  if isDrawing = false then strokes
  else
    match currentStroke with
    | none => strokes
    | some cs => if 2 ≤ cs.points.length then strokes ++ [cs] else strokes

/-- The stroke-commit core of `handleDone` (DrawTool): any in-progress
stroke is appended to the final list only when it has at least 2 points. -/
def handleDoneStrokes (currentStroke : Option Stroke)
    (strokes : List Stroke) : List Stroke :=
  match currentStroke with
  | some cs => if 2 ≤ cs.points.length then strokes ++ [cs] else strokes
  | none => strokes

/-- C9: strokes shorter than 2 points are never persisted and never
rendered.  Both commit paths of the drawing tool either leave the stroke
list unchanged or append a stroke with at least 2 points; the export
renderer skips a stroke exactly when it has fewer than 2 points; and a
2-point stroke is rendered as a polyline with a 2-point path, i.e. one
drawn line segment. -/
theorem short_strokes_never_rendered :
    (∀ (isDrawing : Bool) (c : Option Stroke) (strokes : List Stroke),
        handleDrawEnd isDrawing c strokes = strokes ∨
        ∃ cs, c = some cs ∧ 2 ≤ cs.points.length ∧
          handleDrawEnd isDrawing c strokes = strokes ++ [cs]) ∧
    (∀ (c : Option Stroke) (strokes : List Stroke),
        handleDoneStrokes c strokes = strokes ∨
        ∃ cs, c = some cs ∧ 2 ≤ cs.points.length ∧
          handleDoneStrokes c strokes = strokes ++ [cs]) ∧
    (∀ (stroke : Stroke) (scale : ℚ),
        renderStroke stroke scale = none ↔ stroke.points.length < 2) ∧
    (∀ (i col sz : String) (p0 p1 : Point) (scale : ℚ),
        ∃ rs, renderStroke ⟨i, col, sz, [p0, p1]⟩ scale = some rs ∧
          rs.path = [scalePoint scale p0, scalePoint scale p1]) := by
  refine ⟨?_, ?_, ?_, ?_⟩
  · intro isDrawing c strokes
    unfold handleDrawEnd
    split
    · exact Or.inl rfl
    · match c with
      | none => exact Or.inl rfl
      | some cs =>
        by_cases hlen : 2 ≤ cs.points.length
        · exact Or.inr ⟨cs, rfl, hlen, by simp [hlen]⟩
        · exact Or.inl (by simp [hlen])
  · intro c strokes
    unfold handleDoneStrokes
    match c with
    | none => exact Or.inl rfl
    | some cs =>
      by_cases hlen : 2 ≤ cs.points.length
      · exact Or.inr ⟨cs, rfl, hlen, by simp [hlen]⟩
      · exact Or.inl (by simp [hlen])
  · intro stroke scale
    unfold renderStroke
    constructor
    · intro h
      by_contra hc
      simp [hc] at h
    · intro h
      simp [h]
  · intro i col sz p0 p1 scale
    refine ⟨⟨col, exportBrushWidth sz * scale, [scalePoint scale p0, scalePoint scale p1]⟩, ?_, rfl⟩
    unfold renderStroke
    simp

/-- The style record of a text element, as consumed by `drawText`
(ExportEngine.js); every field may be absent. -/
structure TextStyle where
  fontId : Option String
  color : Option String
  textAlign : Option String
  styleMode : Option String
deriving DecidableEq, Repr

/-- The `data` payload of a placed element; shaped by the element type
(stickerId for stickers, emojiChar for emojis, text and style for text). -/
structure ElementData where
  stickerId : Option String
  emojiChar : Option String
  text : Option String
  style : Option TextStyle
deriving DecidableEq, Repr

/-- A placed overlay element: id, type string, position, uniform scale,
rotation in degrees, and optional data payload. -/
structure Element where
  id : String
  type : String
  x : ℚ
  y : ℚ
  scale : ℚ
  rotation : ℚ
  data : Option ElementData
deriving DecidableEq, Repr

/-- The sort key `order[a.type] || 0` used by `exportImage`: the lookup
table is sticker 0, emoji 1, text 2, and a missing key (`undefined`) falls
back to 0; the stored 0 for sticker is falsy, so `|| 0` also yields 0. -/
def typeOrder (t : String) : ℤ :=
  match t with
  | "sticker" => 0
  | "emoji" => 1
  | "text" => 2
  | _ => 0

/-- The comparator order of `exportImage`: `a` weakly precedes `b` when the
comparator `order[a.type] - order[b.type]` is nonpositive. -/
def elLE (a b : Element) : Prop :=
  typeOrder a.type ≤ typeOrder b.type

instance : DecidableRel elLE :=
  fun a b => inferInstanceAs (Decidable (typeOrder a.type ≤ typeOrder b.type))

instance : IsTotal Element elLE :=
  ⟨fun a b => le_total (typeOrder a.type) (typeOrder b.type)⟩

instance : IsTrans Element elLE :=
  ⟨fun _ _ _ h1 h2 => le_trans h1 h2⟩

/-- The call `[...elements].sort((a, b) => ...)` of `exportImage` with the
type-priority comparator.  `Array.prototype.sort` is stable (ES2019) and
the comparator is consistent with `elLE`, so the call is modelled by the
stable insertion sort. -/
def sortElements (elements : List Element) : List Element :=
  elements.insertionSort elLE

/-- One draw call of the export compositor. -/
inductive DrawOp where
  | base : DrawOp
  | strokeOp : RenderedStroke → DrawOp
  | stickerOp : Element → DrawOp
  | emojiOp : Element → DrawOp
  | textOp : Element → DrawOp
deriving DecidableEq, Repr

/-- The dispatch of the `sortedElements.forEach` in `exportImage`: stickers,
emojis and texts get a draw call, any other type is skipped. -/
def elementOp (e : Element) : Option DrawOp :=
  if e.type = "sticker" then some (DrawOp.stickerOp e)
  else if e.type = "emoji" then some (DrawOp.emojiOp e)
  else if e.type = "text" then some (DrawOp.textOp e)
  else none

/-- The ordered draw-call sequence of `exportImage` (ExportEngine.js):
the frozen base frame, then all strokes in insertion order (the
`strokes.length > 0` guard is redundant since `drawStrokes` of an empty
list draws nothing), then the stably sorted elements. -/
def exportDrawOps (strokes : List Stroke) (elements : List Element)
    (scale : ℚ) : List DrawOp :=
  (DrawOp.base :: (drawStrokes strokes scale).map DrawOp.strokeOp)
    ++ (sortElements elements).filterMap elementOp

theorem filter_orderedInsert (k : ℤ) (a : Element) (l : List Element) :
    (List.orderedInsert elLE a l).filter (fun e => decide (typeOrder e.type = k)) =
      if typeOrder a.type = k
        then a :: l.filter (fun e => decide (typeOrder e.type = k))
        else l.filter (fun e => decide (typeOrder e.type = k)) := by
  induction l with
  | nil =>
    rw [List.orderedInsert]
    by_cases hk : typeOrder a.type = k <;> simp [List.filter, hk]
  | cons b l ih =>
    rw [List.orderedInsert]
    by_cases hab : elLE a b
    · rw [if_pos hab]
      by_cases hk : typeOrder a.type = k <;> simp [List.filter, hk]
    · rw [if_neg hab]
      have hb : typeOrder b.type < typeOrder a.type := lt_of_not_le hab
      rw [List.filter_cons, List.filter_cons]
      by_cases hk : typeOrder a.type = k
      · have hbk : ¬ typeOrder b.type = k := by omega
        simp [hbk, ih, hk]
      · by_cases hbk : typeOrder b.type = k <;> simp [hbk, ih, hk]

/-- Stability of the modelled sort: for every priority value, the elements
with that priority appear in the output in exactly their input order. -/
theorem sortElements_stable (k : ℤ) (l : List Element) :
    (sortElements l).filter (fun e => decide (typeOrder e.type = k)) =
      l.filter (fun e => decide (typeOrder e.type = k)) := by
  induction l with
  | nil => rfl
  | cons a l ih =>
    unfold sortElements at ih ⊢
    rw [List.insertionSort, filter_orderedInsert, List.filter_cons]
    by_cases hk : typeOrder a.type = k <;> simp [hk, ih]

/-- A text element placed first. -/
def textElemEx : Element :=
  ⟨"e1", "text", 10, 10, 1, 0,
    some ⟨none, none, some "Hi", some ⟨some "classic", some "#FFFFFF", none, some "none"⟩⟩⟩

/-- A sticker element placed second. -/
def stickerElemEx : Element :=
  ⟨"e2", "sticker", 20, 20, 1, 0, some ⟨some "sticker_01", none, none, none⟩⟩

/-- An emoji element placed third. -/
def emojiElemEx : Element :=
  ⟨"e3", "emoji", 30, 30, 1, 0, some ⟨none, some "smile", none, none⟩⟩

/-- C5: the export compositor sorts placed elements by type priority
sticker(0) < emoji(1) < text(2) with a stable sort — the output is a
permutation of the input, is sorted for the comparator order, and preserves
the relative order of equal-priority elements — and on the concrete request
with elements inserted in the order text, sticker, emoji the draw sequence
is base, sticker, emoji, text: the text is drawn above the other two. -/
theorem export_z_order (elements : List Element) :
    List.Perm (sortElements elements) elements ∧
    List.Sorted elLE (sortElements elements) ∧
    (∀ k : ℤ, (sortElements elements).filter (fun e => decide (typeOrder e.type = k)) =
        elements.filter (fun e => decide (typeOrder e.type = k))) ∧
    exportDrawOps [] [textElemEx, stickerElemEx, emojiElemEx] 1 =
      [DrawOp.base, DrawOp.stickerOp stickerElemEx, DrawOp.emojiOp emojiElemEx,
        DrawOp.textOp textElemEx] := by
  refine ⟨List.perm_insertionSort elLE elements,
    List.sorted_insertionSort elLE elements,
    fun k => sortElements_stable k elements, ?_⟩
  with_unfolding_all decide

/-- A run of `applyPixelFilter` that faults after `k` pixels: the first `k`
pixels of the working copy have been transformed, the rest are untouched. -/
def applyPixelFilterUpTo (imageData : List Pixel) (filterName : String)
    (k : ℕ) : List Pixel :=
  (imageData.take k).map (applyFilterPixel filterName) ++ imageData.drop k

/-- Whether the pixel transform of a capture completes or throws after some
number of processed pixels. -/
inductive FilterRun where
  | completes : FilterRun
  | throwsAt : ℕ → FilterRun
deriving DecidableEq, Repr

/-- Step 2 of `captureFrame` (useCamera.js): for the `original` filter the
canvas is left as drawn; otherwise `getImageData` takes a copy, the filter
runs on the copy, and only on success does `putImageData` write the copy
back — the `catch` block leaves the canvas holding the unfiltered frame,
and the partially transformed copy is discarded. -/
def captureFilteredCanvas (canvas : List Pixel) (selectedFilter : String)
    (run : FilterRun) : List Pixel :=
  if selectedFilter = "original" then canvas
  else
    match run with
    | FilterRun.completes => applyPixelFilterUpTo canvas selectedFilter canvas.length
    | FilterRun.throwsAt _ => canvas

theorem applyPixelFilterUpTo_length (imageData : List Pixel) (filterName : String) :
    applyPixelFilterUpTo imageData filterName imageData.length =
      applyPixelFilter imageData filterName := by
  unfold applyPixelFilterUpTo applyPixelFilter
  simp

/-- C6: whatever the filter is and wherever a fault occurs, the captured
canvas is either the fully filtered buffer or the original unfiltered
buffer — never a partially filtered one. -/
theorem capture_filter_atomic (canvas : List Pixel) (selectedFilter : String)
    (run : FilterRun) :
    captureFilteredCanvas canvas selectedFilter run = applyPixelFilter canvas selectedFilter ∨
    captureFilteredCanvas canvas selectedFilter run = canvas := by
  unfold captureFilteredCanvas
  split
  · exact Or.inr rfl
  · cases run with
    | completes => exact Or.inl (applyPixelFilterUpTo_length canvas selectedFilter)
    | throwsAt k => exact Or.inr rfl

/-- The empty style record that `element.data?.style` falls back to in
`drawText` via the JS or-default. -/
def emptyStyle : TextStyle :=
  ⟨none, none, none, none⟩

/-- The expression `element.data?.style` with its or-default from
`drawText`: a missing data payload or a missing style gives the empty
record. -/
def styleOf (element : Element) : TextStyle :=
  match element.data with
  | some d => d.style.getD emptyStyle
  | none => emptyStyle

/-- JS or-default on an optional string: `undefined` and the empty string
are falsy. -/
def jsStrOr (v : Option String) (d : String) : String :=
  match v with
  | some s => if s = "" then d else s
  | none => d

/-- The expression `style.color`, defaulted to the lowercase white
`#fff`, from `drawText`. -/
def textColor (element : Element) : String :=
  jsStrOr (styleOf element).color "#fff"

/-- The contrasting ink chosen by `drawText` for the background and
highlight style modes: black when the colour equals `#FFFFFF` or
`#FFCC00`, else white. -/
def contrastInk (color : String) : String :=
  if color = "#FFFFFF" ∨ color = "#FFCC00" then "#000" else "#FFF"

/-- What `drawText` draws for each style mode. -/
inductive TextDecoration where
  | strokeOnly : String → ℚ → TextDecoration
  | backgroundPill : String → String → ℚ → ℚ → TextDecoration
  | highlightBlock : String → String → ℚ → ℚ → TextDecoration
  | plainShadow : String → ℚ → ℚ → TextDecoration
deriving DecidableEq, Repr

/-- The style-mode dispatch of `drawText` (ExportEngine.js): `stroke` is an
outline in the colour with line width `2*scale`; `background` is a pill in
the colour with padding `8*scale` and corner radius `4*scale` and the text
in the contrasting ink; `highlight` is a block with padding `12*scale` and
radius `8*scale`, text in the contrasting ink; anything else is a plain
fill with a drop shadow of blur `3*scale` and offset `1*scale`. -/
def drawTextDecoration (element : Element) (scale : ℚ) : TextDecoration :=
  if (styleOf element).styleMode = some "stroke" then
    TextDecoration.strokeOnly (textColor element) (2 * scale)
  else if (styleOf element).styleMode = some "background" then
    TextDecoration.backgroundPill (textColor element)
      (contrastInk (textColor element)) (8 * scale) (4 * scale)
  else if (styleOf element).styleMode = some "highlight" then
    TextDecoration.highlightBlock (textColor element)
      (contrastInk (textColor element)) (12 * scale) (8 * scale)
  else
    TextDecoration.plainShadow (textColor element) (3 * scale) (1 * scale)

theorem textColor_special_iff (element : Element) :
    (textColor element = "#FFFFFF" ∨ textColor element = "#FFCC00") ↔
      ((styleOf element).color = some "#FFFFFF" ∨
        (styleOf element).color = some "#FFCC00") := by
  unfold textColor jsStrOr
  cases hcol : (styleOf element).color with
  | none => simp
  | some s =>
    by_cases hs : s = ""
    · subst hs
      simp
    · simp [hs]

theorem contrastInk_eq_black_iff (element : Element) :
    contrastInk (textColor element) = "#000" ↔
      ((styleOf element).color = some "#FFFFFF" ∨
        (styleOf element).color = some "#FFCC00") := by
  rw [← textColor_special_iff]
  unfold contrastInk
  split
  · rename_i hcond
    simp [hcond]
  · rename_i hcond
    simp [hcond]

theorem contrastInk_cases (c : String) :
    contrastInk c = "#000" ∨ contrastInk c = "#FFF" := by
  unfold contrastInk
  split
  · exact Or.inl rfl
  · exact Or.inr rfl

/-- C8: whenever `drawText` renders the background or the highlight
decoration, the ink of the text glyph is black exactly when the element
colour is the string `#FFFFFF` or `#FFCC00`, and otherwise white. -/
theorem text_ink_contrast (element : Element) (scale : ℚ) (pill ink : String)
    (pad rad : ℚ)
    (h : drawTextDecoration element scale = TextDecoration.backgroundPill pill ink pad rad ∨
      drawTextDecoration element scale = TextDecoration.highlightBlock pill ink pad rad) :
    (ink = "#000" ↔
      ((styleOf element).color = some "#FFFFFF" ∨
        (styleOf element).color = some "#FFCC00")) ∧
    (ink = "#000" ∨ ink = "#FFF") := by
  rcases h with h | h <;>
  · unfold drawTextDecoration at h
    split at h
    · simp at h
    · split at h
      · first
        | · rw [TextDecoration.backgroundPill.injEq] at h
            obtain ⟨hpill, hink, hpad, hrad⟩ := h
            subst hink
            exact ⟨contrastInk_eq_black_iff element, contrastInk_cases _⟩
        | · simp at h
      · split at h
        · first
          | · rw [TextDecoration.highlightBlock.injEq] at h
              obtain ⟨hpill, hink, hpad, hrad⟩ := h
              subst hink
              exact ⟨contrastInk_eq_black_iff element, contrastInk_cases _⟩
          | · simp at h
        · simp at h

/-- A text element with style mode background and colour the accent yellow. -/
def textBgElemEx : Element :=
  ⟨"e4", "text", 0, 0, 1, 0,
    some ⟨none, none, some "Hi", some ⟨some "classic", some "#FFCC00", none, some "background"⟩⟩⟩

/-- C8 witness: the contrast rule applied to a background-mode text element
coloured `#FFCC00`, whose decoration is a pill with black ink. -/
theorem text_ink_contrast_witness :
    (("#000" : String) = "#000" ↔
      ((styleOf textBgElemEx).color = some "#FFFFFF" ∨
        (styleOf textBgElemEx).color = some "#FFCC00")) ∧
    (("#000" : String) = "#000" ∨ ("#000" : String) = "#FFF") :=
  text_ink_contrast textBgElemEx 1 "#FFCC00" "#000" 8 4
    (Or.inl (by with_unfolding_all decide))

/-- An encoded image artifact (the bytes of the PNG blob). -/
structure Blob where
  bytes : List ℕ
deriving DecidableEq, Repr

/-- The settlement of the promise returned by `exportImage`
(ExportEngine.js): the `toBlob` callback fires once with either a blob or
`null`; a blob resolves the promise with both the data URL and the blob,
`null` rejects it with the encoding error. -/
def exportSettle (dataURL : String) (blobResult : Option Blob) :
    Except String (String × Blob) :=
  match blobResult with
  | some blob => Except.ok (dataURL, blob)
  | none => Except.error "Failed to create image blob"

/-- C10: every export call settles in exactly one of two ways — success
carrying the data URL together with the (necessarily present) blob, or an
explicit rejection with the encoding error when the blob is `null`; a
successful settlement with a missing artifact is impossible. -/
theorem export_settles_ok_or_error (dataURL : String) (blobResult : Option Blob) :
    (∃ blob, blobResult = some blob ∧
      exportSettle dataURL blobResult = Except.ok (dataURL, blob)) ∨
    (blobResult = none ∧
      exportSettle dataURL blobResult = Except.error "Failed to create image blob") := by
  cases blobResult with
  | some blob => exact Or.inl ⟨blob, rfl, rfl⟩
  | none => exact Or.inr ⟨rfl, rfl⟩

end CamTech
